import Mathlib

/-!
# Verification of the clinical-translator record pipeline

Shallow embedding of the record-mutation pipeline of the repository
(`patient_chatbot.py`, `app.py`): dynamically-typed Python values, the
record mutator `update_record_data`, the chat reply processing, and the
dashboard add-patient flow, together with proofs settling the frozen
claims about them.
-/

/-- A Python runtime value, restricted to the shapes that occur in the
patient-record pipeline: `None`, strings, integers, lists and
(string-keyed) dicts.  A dict is carried as its insertion-ordered
association list; genuine Python dicts never repeat a key. -/
inductive PyVal where
  | pnone : PyVal
  | pstr : String → PyVal
  | pint : Int → PyVal
  | plist : List PyVal → PyVal
  | pdict : List (String × PyVal) → PyVal
deriving Repr

mutual

/-- Python `==` on embedded values.  Dict comparison is insertion-order
insensitive: equal lengths and every entry of the left dict matched by
key (with `==`-equal value) somewhere in the right dict. -/
def pyEq : PyVal → PyVal → Bool
  | .pnone, .pnone => true
  | .pstr a, .pstr b => a == b
  | .pint a, .pint b => a == b
  | .plist xs, .plist ys => pyEqList xs ys
  | .pdict d₁, .pdict d₂ => d₁.length == d₂.length && pyDictLe d₁ d₂
  | _, _ => false
termination_by a _ => (sizeOf a, 0)
decreasing_by all_goals (simp_wf; omega)

/-- Elementwise Python `==` on two lists of equal length. -/
def pyEqList : List PyVal → List PyVal → Bool
  | [], [] => true
  | x :: xs, y :: ys => pyEq x y && pyEqList xs ys
  | _, _ => false
termination_by xs _ => (sizeOf xs, 0)
decreasing_by all_goals (simp_wf; omega)

/-- Every entry of the first dict has a `==`-matching entry in the second. -/
def pyDictLe : List (String × PyVal) → List (String × PyVal) → Bool
  | [], _ => true
  | (k, v) :: rest, d₂ => pyFindEq k v d₂ && pyDictLe rest d₂
termination_by d₁ _ => (sizeOf d₁, 0)
decreasing_by all_goals (simp_wf; omega)

/-- Some entry of the dict has key `k` and a value `==`-equal to `v`. -/
def pyFindEq (k : String) (v : PyVal) : List (String × PyVal) → Bool
  | [] => false
  | (k₂, v₂) :: rest => (k == k₂ && pyEq v v₂) || pyFindEq k v rest
termination_by d₂ => (sizeOf v + 1, sizeOf d₂)
decreasing_by all_goals (simp_wf; omega)

end

theorem pyEq_pnone_pnone : pyEq .pnone .pnone = true := by
  rw [pyEq]

theorem pyEq_pstr_pstr (a b : String) : pyEq (.pstr a) (.pstr b) = (a == b) := by
  rw [pyEq]

theorem pyEq_pint_pint (a b : Int) : pyEq (.pint a) (.pint b) = (a == b) := by
  rw [pyEq]

theorem pyEq_plist_plist (xs ys : List PyVal) :
    pyEq (.plist xs) (.plist ys) = pyEqList xs ys := by
  rw [pyEq]

theorem pyEq_pdict_pdict (d₁ d₂ : List (String × PyVal)) :
    pyEq (.pdict d₁) (.pdict d₂) = (d₁.length == d₂.length && pyDictLe d₁ d₂) := by
  rw [pyEq]

theorem pyEqList_nil_nil : pyEqList [] [] = true := by
  rw [pyEqList]

theorem pyEqList_cons_cons (x y : PyVal) (xs ys : List PyVal) :
    pyEqList (x :: xs) (y :: ys) = (pyEq x y && pyEqList xs ys) := by
  rw [pyEqList]

theorem pyDictLe_nil (d : List (String × PyVal)) : pyDictLe [] d = true := by
  rw [pyDictLe]

theorem pyDictLe_cons (k : String) (v : PyVal) (rest d₂ : List (String × PyVal)) :
    pyDictLe ((k, v) :: rest) d₂ = (pyFindEq k v d₂ && pyDictLe rest d₂) := by
  rw [pyDictLe]

theorem pyFindEq_nil (k : String) (v : PyVal) : pyFindEq k v [] = false := by
  rw [pyFindEq]

theorem pyFindEq_cons (k k₂ : String) (v v₂ : PyVal) (rest : List (String × PyVal)) :
    pyFindEq k v ((k₂, v₂) :: rest) = ((k == k₂ && pyEq v v₂) || pyFindEq k v rest) := by
  rw [pyFindEq]

/-- An entry present in a dict is found by `pyFindEq` as soon as its value
compares equal to itself. -/
theorem pyFindEq_of_mem {k : String} {v : PyVal} {d : List (String × PyVal)}
    (hmem : (k, v) ∈ d) (hrefl : pyEq v v = true) : pyFindEq k v d = true := by
  induction d with
  | nil => cases hmem
  | cons e rest ih =>
    obtain ⟨k₂, v₂⟩ := e
    rw [pyFindEq_cons]
    rcases List.mem_cons.mp hmem with h | h
    · obtain ⟨hk, hv⟩ := Prod.mk.injEq .. ▸ h
      subst hk; subst hv
      simp [hrefl]
    · simp [ih h]

/-- `pyDictLe` holds once every entry of the left dict is found in the right. -/
theorem pyDictLe_of_forall {d₁ d₂ : List (String × PyVal)}
    (h : ∀ kv ∈ d₁, pyFindEq kv.1 kv.2 d₂ = true) : pyDictLe d₁ d₂ = true := by
  induction d₁ with
  | nil => exact pyDictLe_nil d₂
  | cons e rest ih =>
    obtain ⟨k, v⟩ := e
    rw [pyDictLe_cons]
    have h₁ := h (k, v) (List.mem_cons_self _ _)
    have h₂ := ih fun kv hkv => h kv (List.mem_cons_of_mem _ hkv)
    simp [h₁, h₂]

/-- `pyEqList` is reflexive on lists of self-equal elements. -/
theorem pyEqList_refl_of {xs : List PyVal}
    (h : ∀ x ∈ xs, pyEq x x = true) : pyEqList xs xs = true := by
  induction xs with
  | nil => exact pyEqList_nil_nil
  | cons x rest ih =>
    rw [pyEqList_cons_cons]
    simp [h x (List.mem_cons_self _ _), ih fun y hy => h y (List.mem_cons_of_mem _ hy)]

/-- Python `==` is reflexive on the embedded values (no floats here). -/
theorem pyEq_refl (v : PyVal) : pyEq v v = true := by
  match v with
  | .pnone => exact pyEq_pnone_pnone
  | .pstr s => rw [pyEq_pstr_pstr]; simp
  | .pint n => rw [pyEq_pint_pint]; simp
  | .plist xs =>
    rw [pyEq_plist_plist]
    exact pyEqList_refl_of fun x hx =>
      have : sizeOf x < sizeOf (PyVal.plist xs) := by
        have := List.sizeOf_lt_of_mem hx
        simp only [PyVal.plist.sizeOf_spec]; omega
      pyEq_refl x
  | .pdict d =>
    rw [pyEq_pdict_pdict]
    have hle : pyDictLe d d = true := pyDictLe_of_forall fun kv hkv =>
      have : sizeOf kv.2 < 1 + sizeOf d := by
        have h₁ := List.sizeOf_lt_of_mem hkv
        have h₂ : sizeOf kv.2 < sizeOf kv := by
          obtain ⟨k, v'⟩ := kv
          simp [Prod.mk.sizeOf_spec]
        omega
      pyFindEq_of_mem hkv (pyEq_refl kv.2)
    simp [hle]
termination_by sizeOf v

/-- Lookup of a string key in a Python dict (first — and, for genuine
dicts, only — occurrence). -/
def pyLookup (m : List (String × PyVal)) (k : String) : Option PyVal :=
  match m with
  | [] => none
  | (k', v) :: rest => if k' = k then some v else pyLookup rest k

/-- Python dict assignment `m[k] = v`: replace the value in place if the
key exists (keeping its position), otherwise append the new entry. -/
def recordSet (m : List (String × PyVal)) (k : String) (v : PyVal) :
    List (String × PyVal) :=
  match m with
  | [] => [(k, v)]
  | (k', v') :: rest => if k' = k then (k, v) :: rest else (k', v') :: recordSet rest k v

theorem pyLookup_recordSet_self (m : List (String × PyVal)) (k : String) (v : PyVal) :
    pyLookup (recordSet m k v) k = some v := by
  induction m with
  | nil => simp [pyLookup, recordSet]
  | cons e rest ih =>
    obtain ⟨k', v'⟩ := e
    by_cases h : k' = k
    · subst h; simp [pyLookup, recordSet]
    · simp [pyLookup, recordSet, h, ih]

theorem recordSet_recordSet_self (m : List (String × PyVal)) (k : String) (v w : PyVal) :
    recordSet (recordSet m k v) k w = recordSet m k w := by
  induction m with
  | nil => simp [recordSet]
  | cons e rest ih =>
    obtain ⟨k', v'⟩ := e
    by_cases h : k' = k
    · subst h; simp [recordSet]
    · simp [recordSet, h, ih]

theorem recordSet_self_of_lookup {m : List (String × PyVal)} {k : String} {v : PyVal}
    (h : pyLookup m k = some v) : recordSet m k v = m := by
  induction m with
  | nil => simp [pyLookup] at h
  | cons e rest ih =>
    obtain ⟨k', v'⟩ := e
    by_cases hk : k' = k
    · subst hk
      simp [pyLookup] at h
      simp [recordSet, h]
    · simp [pyLookup, hk] at h
      simp [recordSet, hk, ih h]

theorem length_recordSet_of_lookup {m : List (String × PyVal)} {k : String}
    (h : (pyLookup m k).isSome) (v : PyVal) :
    (recordSet m k v).length = m.length := by
  induction m with
  | nil => simp [pyLookup] at h
  | cons e rest ih =>
    obtain ⟨k', v'⟩ := e
    by_cases hk : k' = k
    · subst hk; simp [recordSet]
    · simp [pyLookup, hk] at h
      simp [recordSet, hk, ih h]

/-- Python `needle in xs` for a list: some element compares `==`-equal. -/
def pyIn (needle : PyVal) (xs : List PyVal) : Bool :=
  xs.any fun x => pyEq x needle

/-- Python truthiness of the embedded values. -/
def pyTruthy : PyVal → Bool
  | .pnone => false
  | .pstr s => s ≠ ""
  | .pint n => n ≠ 0
  | .plist xs => !xs.isEmpty
  | .pdict m => !m.isEmpty

/-- `needle` starts the list `l` (character-level helper). -/
def listStartsWith : List Char → List Char → Bool
  | [], _ => true
  | _ :: _, [] => false
  | a :: as, b :: bs => a == b && listStartsWith as bs

/-- `needle` occurs as a contiguous segment of `l`. -/
def listContainsSeg (needle : List Char) : List Char → Bool
  | [] => listStartsWith needle []
  | l@(_ :: rest) => listStartsWith needle l || listContainsSeg needle rest

/-- Python substring test `needle in hay` on strings. -/
def strContainsSub (hay needle : String) : Bool :=
  listContainsSeg needle.toList hay.toList

/-- ASCII whitespace as stripped by Python's `str.strip()` (the record
pipeline only ever meets ASCII whitespace). -/
def isPySpace (c : Char) : Bool :=
  c == ' ' || c == '\t' || c == '\n' || c == '\r' || c == '\x0b' || c == '\x0c'

/-- Python `s.strip()`: drop leading and trailing whitespace. -/
def pyStrip (s : String) : String :=
  String.mk (((s.toList.dropWhile isPySpace).reverse.dropWhile isPySpace).reverse)

/-- The observable report of one `update_record_data` call (the
`st.toast` / `st.error` message emitted, if any). -/
inductive Outcome where
  | invalidDetails
  | added
  | duplicate
  | removed
  | removeNotFound
  | updated
  | updateNotFound
  | summaryUpdated
  | invalidSummaryFormat
  | unsupported
  | silentNoop
deriving DecidableEq, Repr

/-- The three required `ClinicalTerm` fields checked by `update_record_data`. -/
def required_keys : List String :=
  ["standard_name", "standard_code_type", "standard_code_value"]

/-- Python `k in details` for one key: key containment for a dict,
substring test for a string, `==`-element test for a list; `None` for
values (such as `None` or a number) on which `in` raises `TypeError`. -/
def pyContainsKey (details : PyVal) (k : String) : Option Bool :=
  match details with
  | .pdict m => some (pyLookup m k).isSome
  | .pstr s => some (strContainsSub s k)
  | .plist xs => some (pyIn (.pstr k) xs)
  | _ => none

/-- `all(k in details for k in ks)` with Python's left-to-right
short-circuit; `none` when a membership test raises `TypeError`. -/
def pyHasAllKeys (details : PyVal) : List String → Option Bool
  | [] => some true
  | k :: ks =>
    match pyContainsKey details k with
    | none => none
    | some false => some false
    | some true => pyHasAllKeys details ks

/-- Lines 70–71 of `patient_chatbot.py`: if the target key is missing or
not bound to a list, initialise it to the empty list (this happens before
details validation). -/
def normalizeTarget (record : List (String × PyVal)) (target : String) :
    List (String × PyVal) :=
  match pyLookup record target with
  | some (.plist _) => record
  | _ => recordSet record target (.plist [])

/-- The list bound to `target` (after normalisation this is exact). -/
def targetListOf (record : List (String × PyVal)) (target : String) : List PyVal :=
  match pyLookup record target with
  | some (.plist xs) => xs
  | _ => []

/-- Python `x.get(k)`: `some` of the looked-up value (`None` when the key
is missing) for a dict; `none` (an `AttributeError`) for anything else. -/
def pyGetMethod (x : PyVal) (k : String) : Option PyVal :=
  match x with
  | .pdict m => some ((pyLookup m k).getD .pnone)
  | _ => none

/-- The `action == "update"` loop of `update_record_data`: walk the list,
replace the first item whose `item.get("standard_name")` compares
`==`-equal to `name` with `details`, and stop there.  Result:
`none` = an item raised `AttributeError` before a match was found;
`some none` = no match (loop ran out); `some (some ys)` = replaced. -/
def updateByName (name details : PyVal) : List PyVal → Option (Option (List PyVal))
  | [] => some none
  | item :: rest =>
    match pyGetMethod item "standard_name" with
    | none => none
    | some v =>
      if pyEq v name then some (some (details :: rest))
      else
        match updateByName name details rest with
        | none => none
        | some none => some none
        | some (some ys) => some (some (item :: ys))

/-- `update_record_data(record, action, target, details)` from
`patient_chatbot.py` (lines 60–124), embedded functionally: the returned
pair is the record state when control leaves the function together with
`some` outcome report, or `none` in the second component when the Python
code raises (`TypeError`/`AttributeError`) — in-place mutations performed
before the raise are kept in the first component. -/
def update_record_data (record : List (String × PyVal)) (action target : String)
    (details : PyVal) : List (String × PyVal) × Option Outcome :=
  if target = "problems" ∨ target = "medications" then
    let record₁ := normalizeTarget record target
    let xs := targetListOf record₁ target
    match pyHasAllKeys details required_keys with
    | none => (record₁, none)
    | some false => (record₁, some .invalidDetails)
    | some true =>
      if action = "add" then
        if pyIn details xs then (record₁, some .duplicate)
        else (recordSet record₁ target (.plist (xs ++ [details])), some .added)
      else if action = "remove" then
        let ys := xs.filter fun x => !(pyEq x details)
        if ys.length < xs.length then (recordSet record₁ target (.plist ys), some .removed)
        else (recordSet record₁ target (.plist ys), some .removeNotFound)
      else if action = "update" then
        match pyGetMethod details "standard_name" with
        | none => (record₁, none)
        | some name =>
          match updateByName name details xs with
          | none => (record₁, none)
          | some none => (record₁, some .updateNotFound)
          | some (some ys) => (recordSet record₁ target (.plist ys), some .updated)
      else (record₁, some .silentNoop)
  else if target = "quick_summary" ∧ action = "update" then
    let newSummary : PyVal :=
      match details with
      | .pdict m =>
        let a := (pyLookup m "quick_summary").getD .pnone
        if pyTruthy a then a else (pyLookup m "text").getD .pnone
      | .pstr s => .pstr s
      | _ => .pnone
    if pyTruthy newSummary then
      (recordSet record "quick_summary" newSummary, some .summaryUpdated)
    else (record, some .invalidSummaryFormat)
  else (record, some .unsupported)

/-- Line 235 of `patient_chatbot.py`:
`text = (response.text or "").strip() or "_No response received._"`. -/
def procText (raw : String) : String :=
  let t := pyStrip raw
  if t = "" then "_No response received._" else t

/-- Lines 206–215 of `patient_chatbot.py`: the `if user_prompt:` gate and
the transcript append.  Returns the new transcript together with whether
control proceeds to the model call (the `st.spinner` block).  Python
truthiness on strings only rejects the empty string. -/
def submitUserMessage (history : List (String × String)) (input : String) :
    List (String × String) × Bool :=
  if input ≠ "" then (history ++ [("user", pyStrip input)], true)
  else (history, false)

/-- `regenerate_quick_summary` (lines 35–57): the model response text is a
parameter (`none` models a raised/failed call, caught inside); a nonempty
stripped summary overwrites `quick_summary`, anything else leaves the
record alone. -/
def regenerate_quick_summary (resp : Option String) (record : List (String × PyVal)) :
    List (String × PyVal) :=
  match resp with
  | none => record
  | some t =>
    let s := pyStrip t
    if s ≠ "" then recordSet record "quick_summary" (.pstr s) else record

/-- Index of the first occurrence of `c` (length of the list if absent). -/
def firstIdx (c : Char) : List Char → Nat
  | [] => 0
  | a :: rest => if a == c then 0 else 1 + firstIdx c rest

/-- Lines 241–243: `text[text.find("\x7b") : text.rfind("\x7d") + 1]`. -/
def braceCandidate (text : String) : String :=
  let cs := text.toList
  let i := firstIdx '{' cs
  let j := cs.length - 1 - firstIdx '}' cs.reverse
  String.mk ((cs.drop i).take (j + 1 - i))

/-- Per-patient chat session state: the transcript (role, text) and the
`st.session_state.patients` map. -/
structure ChatState where
  transcript : List (String × String)
  patients : List (String × PyVal)
deriving Repr

/-- Result of processing one model reply: the state when the handler
finishes (every path ends in a rerun or a fall-through) and whether
`save_patient_data` was invoked. -/
structure ReplyResult where
  state : ChatState
  saveCalled : Bool
deriving Repr

/-- Lines 235–290 of `patient_chatbot.py`: append the assistant reply to
the transcript, scan it for a brace-delimited add/remove directive, and —
when one parses and validates — apply it to the latest note's `raw_data`,
regenerate the summary and persist.  External collaborators are
parameters: `parse` is `json.loads` (`none` = raises) and `regenResp` the
summary-regeneration model response; the Firestore save outcome only
selects which toast is shown, so it does not appear in the state.  All
exception paths caught by the handlers land on the transcript-only state,
except a raise inside `update_record_data`, whose in-place mutations
survive into session state. -/
def processReply (parse : String → Option PyVal) (regenResp : Option String)
    (pid : String) (st : ChatState) (raw : String) : ReplyResult :=
  let text := procText raw
  let st₁ : ChatState := ⟨st.transcript ++ [("assistant", text)], st.patients⟩
  let abort : ReplyResult := ⟨st₁, false⟩
  if strContainsSub text "\x7b" && strContainsSub text "\x7d" &&
      (strContainsSub text "add" || strContainsSub text "remove") then
    match parse (braceCandidate text) with
    | none => abort
    | some (.pdict m) =>
      match (pyLookup m "action").getD (.pstr "") with
      | .pstr acts =>
        let act := acts.toLower
        let tgt := (pyLookup m "target").getD (.pstr "")
        let det := (pyLookup m "details").getD (.pdict [])
        if (act = "add" ∨ act = "remove") ∧
            pyIn tgt [.pstr "problems", .pstr "medications"] = true then
          match tgt with
          | .pstr tgts =>
            match pyLookup st.patients pid with
            | none => abort
            | some pdata =>
              if pyTruthy pdata = false then abort
              else
                match pdata with
                | .pdict pm =>
                  let notes := (pyLookup pm "notes").getD .pnone
                  if pyTruthy notes = false then abort
                  else
                    match notes with
                    | .plist ns =>
                      match ns.getLast? with
                      | none => abort
                      | some (.pdict nm) =>
                        match pyLookup nm "raw_data" with
                        | none => abort
                        | some (.pdict lm) =>
                          let upd := update_record_data lm act tgts det
                          let writeBack := fun (recV : List (String × PyVal)) =>
                            recordSet st.patients pid (.pdict (recordSet pm "notes"
                              (.plist (ns.dropLast ++
                                [.pdict (recordSet nm "raw_data" (.pdict recV))]))))
                          match upd.2 with
                          | none => ⟨⟨st₁.transcript, writeBack upd.1⟩, false⟩
                          | some _ =>
                            let rec₂ := regenerate_quick_summary regenResp upd.1
                            ⟨⟨st₁.transcript, writeBack rec₂⟩, true⟩
                        | some _ => abort
                      | some _ => abort
                    | _ => abort
                | _ => abort
          | _ => abort
        else abort
      | _ => abort
    | some _ => abort
  else abort

/-- Dashboard session state: the `st.session_state.patients` map and the
persisted Firestore `patients` collection (documents keyed by patient id). -/
structure DashState where
  patients : List (String × PyVal)
  store : List (String × PyVal)
deriving Repr

/-- `save_patient_data` (`app.py` lines 149–168): a successful
`document(pid).set(data)` overwrites the whole document; on exhausted
retries (or no client) the store is untouched and `False` is returned.
The retry loop's transient outcomes are summarised by `dbOk`. -/
def save_patient_data (dbOk : Bool) (store : List (String × PyVal))
    (pid : String) (data : PyVal) : List (String × PyVal) × Bool :=
  if dbOk then (recordSet store pid data, true) else (store, false)

/-- The new-patient dict built by the add-patient form (`app.py` 219–223). -/
def newPatientData (name today : String) : PyVal :=
  .pdict [("name", .pstr name), ("date_added", .pstr today), ("notes", .plist [])]

/-- The submitted add-patient form (`app.py` lines 217–230):
`new_id = f"P-{len(st.session_state.patients) + 1001}"`, then save to
Firestore and, on success, write into the session map under that id. -/
def add_patient_submit (dbOk : Bool) (st : DashState) (new_name today : String) :
    DashState :=
  if new_name ≠ "" then
    let new_id := "P-" ++ toString (st.patients.length + 1001)
    let data := newPatientData new_name today
    let res := save_patient_data dbOk st.store new_id data
    if res.2 then ⟨recordSet st.patients new_id data, res.1⟩ else ⟨st.patients, res.1⟩
  else st

theorem normalizeTarget_of_plist {r : List (String × PyVal)} {t : String}
    {xs : List PyVal} (h : pyLookup r t = some (.plist xs)) :
    normalizeTarget r t = r := by
  simp [normalizeTarget, h]

theorem targetListOf_of_lookup {r : List (String × PyVal)} {t : String}
    {xs : List PyVal} (h : pyLookup r t = some (.plist xs)) :
    targetListOf r t = xs := by
  simp [targetListOf, h]

theorem normalizeTarget_lookup (r : List (String × PyVal)) (t : String) :
    ∃ xs, pyLookup (normalizeTarget r t) t = some (.plist xs) := by
  cases h : pyLookup r t with
  | none => exact ⟨[], by simp [normalizeTarget, h, pyLookup_recordSet_self]⟩
  | some v =>
    cases v with
    | pnone => exact ⟨[], by simp [normalizeTarget, h, pyLookup_recordSet_self]⟩
    | pstr s => exact ⟨[], by simp [normalizeTarget, h, pyLookup_recordSet_self]⟩
    | pint n => exact ⟨[], by simp [normalizeTarget, h, pyLookup_recordSet_self]⟩
    | plist xs => exact ⟨xs, by simp [normalizeTarget, h]⟩
    | pdict d => exact ⟨[], by simp [normalizeTarget, h, pyLookup_recordSet_self]⟩

theorem normalizeTarget_idem (r : List (String × PyVal)) (t : String) :
    normalizeTarget (normalizeTarget r t) t = normalizeTarget r t := by
  obtain ⟨xs, h⟩ := normalizeTarget_lookup r t
  exact normalizeTarget_of_plist h

/-- The `action == "add"` branch, as one equation. -/
theorem update_add_eq (R : List (String × PyVal)) (t : String) (d : PyVal)
    (ht : t = "problems" ∨ t = "medications")
    (hv : pyHasAllKeys d required_keys = some true) :
    update_record_data R "add" t d =
      if pyIn d (targetListOf (normalizeTarget R t) t)
      then (normalizeTarget R t, some .duplicate)
      else (recordSet (normalizeTarget R t) t
              (.plist (targetListOf (normalizeTarget R t) t ++ [d])), some .added) := by
  simp only [update_record_data, if_pos ht, hv]
  norm_num

/-- The `action == "remove"` branch, as one equation. -/
theorem update_remove_eq (R : List (String × PyVal)) (t : String) (d : PyVal)
    (ht : t = "problems" ∨ t = "medications")
    (hv : pyHasAllKeys d required_keys = some true) :
    update_record_data R "remove" t d =
      (recordSet (normalizeTarget R t) t
        (.plist ((targetListOf (normalizeTarget R t) t).filter fun x => !(pyEq x d))),
       some (if ((targetListOf (normalizeTarget R t) t).filter
                fun x => !(pyEq x d)).length < (targetListOf (normalizeTarget R t) t).length
             then .removed else .removeNotFound)) := by
  simp only [update_record_data, if_pos ht, hv]
  norm_num
  rw [if_neg (show ¬("remove" = "add") by decide)]
  by_cases hc : ((targetListOf (normalizeTarget R t) t).filter
      fun x => !(pyEq x d)).length < (targetListOf (normalizeTarget R t) t).length
  · simp [hc]
  · simp [hc]

/-- The `action == "update"` branch, as one equation. -/
theorem update_update_eq (R : List (String × PyVal)) (t : String) (d : PyVal)
    (ht : t = "problems" ∨ t = "medications")
    (hv : pyHasAllKeys d required_keys = some true) :
    update_record_data R "update" t d =
      match pyGetMethod d "standard_name" with
      | none => (normalizeTarget R t, none)
      | some name =>
        match updateByName name d (targetListOf (normalizeTarget R t) t) with
        | none => (normalizeTarget R t, none)
        | some none => (normalizeTarget R t, some .updateNotFound)
        | some (some ys) => (recordSet (normalizeTarget R t) t (.plist ys), some .updated) := by
  simp only [update_record_data, if_pos ht, hv]
  norm_num
  rw [if_neg (show ¬("update" = "add") by decide),
    if_neg (show ¬("update" = "remove") by decide)]

/-- The `update` branch once `details.get("standard_name")` succeeded. -/
theorem update_update_eq_some (R : List (String × PyVal)) (t : String) (d name : PyVal)
    (ht : t = "problems" ∨ t = "medications")
    (hv : pyHasAllKeys d required_keys = some true)
    (hname : pyGetMethod d "standard_name" = some name) :
    update_record_data R "update" t d =
      match updateByName name d (targetListOf (normalizeTarget R t) t) with
      | none => (normalizeTarget R t, none)
      | some none => (normalizeTarget R t, some .updateNotFound)
      | some (some ys) => (recordSet (normalizeTarget R t) t (.plist ys), some .updated) := by
  rw [update_update_eq _ _ _ ht hv, hname]

/-- An unrecognised action on a list target falls through every branch
without a report. -/
theorem update_unknown_action_eq (R : List (String × PyVal)) (a t : String) (d : PyVal)
    (ht : t = "problems" ∨ t = "medications")
    (ha₁ : a ≠ "add") (ha₂ : a ≠ "remove") (ha₃ : a ≠ "update")
    (hv : pyHasAllKeys d required_keys = some true) :
    update_record_data R a t d = (normalizeTarget R t, some .silentNoop) := by
  simp only [update_record_data, if_pos ht, hv, if_neg ha₁, if_neg ha₂, if_neg ha₃]

/-- Details failing the required-keys validation: report and return the
(already normalised) record. -/
theorem update_invalid_eq (R : List (String × PyVal)) (a t : String) (d : PyVal)
    (ht : t = "problems" ∨ t = "medications")
    (hv : pyHasAllKeys d required_keys = some false) :
    update_record_data R a t d = (normalizeTarget R t, some .invalidDetails) := by
  simp only [update_record_data, if_pos ht, hv]

/-- A membership test that raises `TypeError` propagates out of the call. -/
theorem update_raise_eq (R : List (String × PyVal)) (a t : String) (d : PyVal)
    (ht : t = "problems" ∨ t = "medications")
    (hv : pyHasAllKeys d required_keys = none) :
    update_record_data R a t d = (normalizeTarget R t, none) := by
  simp only [update_record_data, if_pos ht, hv]

/-- Every `(action, target)` pair outside the handled ones reports
"unsupported" and leaves the record untouched. -/
theorem update_unsupported_eq (R : List (String × PyVal)) (a t : String) (d : PyVal)
    (ht : ¬(t = "problems" ∨ t = "medications"))
    (hq : ¬(t = "quick_summary" ∧ a = "update")) :
    update_record_data R a t d = (R, some .unsupported) := by
  simp only [update_record_data, if_neg ht, if_neg hq]

theorem pyIn_append_self (d : PyVal) (xs : List PyVal) :
    pyIn d (xs ++ [d]) = true := by
  simp [pyIn, List.any_append, pyEq_refl]

theorem pyIn_eq_false_of_forall {d : PyVal} {xs : List PyVal}
    (h : ∀ x ∈ xs, pyEq x d = false) : pyIn d xs = false := by
  simp only [pyIn, List.any_eq_false]
  intro x hx
  simp [h x hx]

/-- A concrete valid `ClinicalTerm` details map used by the witnesses. -/
def sampleTerm : List (String × PyVal) :=
  [("standard_name", .pstr "Lisinopril"), ("standard_code_type", .pstr "RxNorm"),
   ("standard_code_value", .pstr "29046")]

/-- C1: for every record `R` and details map `D` containing the three
`ClinicalTerm` fields, a second `add` of the same `D` to `problems` is a
no-op: it returns the record of the first `add` unchanged and reports a
duplicate. -/
theorem C1_add_problems_idempotent (R : List (String × PyVal))
    (m : List (String × PyVal))
    (hv : pyHasAllKeys (.pdict m) required_keys = some true) :
    update_record_data (update_record_data R "add" "problems" (.pdict m)).1
      "add" "problems" (.pdict m)
    = ((update_record_data R "add" "problems" (.pdict m)).1, some .duplicate) := by
  have ht : ("problems" : String) = "problems" ∨ ("problems" : String) = "medications" :=
    Or.inl rfl
  obtain ⟨xs, hxs⟩ := normalizeTarget_lookup R "problems"
  rw [update_add_eq R _ _ ht hv]
  by_cases hin : pyIn (.pdict m) (targetListOf (normalizeTarget R "problems") "problems") = true
  · rw [if_pos hin]
    rw [update_add_eq _ _ _ ht hv, normalizeTarget_of_plist hxs]
    rw [if_pos hin]
  · rw [if_neg hin]
    rw [update_add_eq _ _ _ ht hv]
    have hlook₂ : pyLookup (recordSet (normalizeTarget R "problems") "problems"
        (.plist (targetListOf (normalizeTarget R "problems") "problems" ++ [.pdict m])))
        "problems"
        = some (.plist (targetListOf (normalizeTarget R "problems") "problems" ++ [.pdict m])) :=
      pyLookup_recordSet_self ..
    rw [normalizeTarget_of_plist hlook₂, targetListOf_of_lookup hlook₂]
    rw [if_pos (pyIn_append_self ..)]

theorem C1_add_problems_idempotent_witness :
    pyHasAllKeys (.pdict sampleTerm) required_keys = some true ∧
    update_record_data (update_record_data [] "add" "problems" (.pdict sampleTerm)).1
      "add" "problems" (.pdict sampleTerm)
    = ((update_record_data [] "add" "problems" (.pdict sampleTerm)).1, some .duplicate) :=
  ⟨by rfl, C1_add_problems_idempotent [] sampleTerm (by rfl)⟩

/-- C2 counterexample: when `D` is already present in `medications`, the
add is suppressed as a duplicate and the remove then deletes the
pre-existing entry, so add-then-remove does not restore the original
list (here it shrinks `[D]` to `[]`). -/
theorem C2_counterexample :
    update_record_data
      (update_record_data [("medications", .plist [.pdict sampleTerm])]
        "add" "medications" (.pdict sampleTerm)).1
      "remove" "medications" (.pdict sampleTerm)
    = ([("medications", .plist [])], some .removed)
    ∧ ([("medications", PyVal.plist [])] : List (String × PyVal))
      ≠ [("medications", .plist [.pdict sampleTerm])] := by
  have hlook : pyLookup [("medications", PyVal.plist [PyVal.pdict sampleTerm])]
      "medications" = some (PyVal.plist [PyVal.pdict sampleTerm]) := by rfl
  constructor
  · have h1 : update_record_data [("medications", PyVal.plist [PyVal.pdict sampleTerm])]
        "add" "medications" (.pdict sampleTerm)
        = ([("medications", PyVal.plist [PyVal.pdict sampleTerm])], some .duplicate) := by
      rw [update_add_eq _ _ _ (Or.inr rfl) (by rfl)]
      rw [normalizeTarget_of_plist hlook, targetListOf_of_lookup hlook]
      rw [if_pos (show pyIn (PyVal.pdict sampleTerm) [PyVal.pdict sampleTerm] = true by
        simp [pyIn, pyEq_refl])]
    rw [h1]
    rw [update_remove_eq _ _ _ (Or.inr rfl) (by rfl)]
    rw [normalizeTarget_of_plist hlook, targetListOf_of_lookup hlook]
    have hf : List.filter (fun x => !pyEq x (PyVal.pdict sampleTerm))
        [PyVal.pdict sampleTerm] = [] := by
      simp [pyEq_refl]
    rw [hf]
    norm_num
    rfl
  · simp

/-- C2 as amended: provided `D` is not already `==`-present in the
`medications` list, `add` followed by `remove` of the same details map is
the identity on the whole record (so in particular on `medications`). -/
theorem C2_add_remove_medications_inverse (R : List (String × PyVal))
    (xs : List PyVal) (m : List (String × PyVal))
    (hv : pyHasAllKeys (.pdict m) required_keys = some true)
    (hlist : pyLookup R "medications" = some (.plist xs))
    (habs : ∀ x ∈ xs, pyEq x (.pdict m) = false) :
    update_record_data (update_record_data R "add" "medications" (.pdict m)).1
      "remove" "medications" (.pdict m)
    = (R, some .removed) := by
  have ht : ("medications" : String) = "problems" ∨ ("medications" : String) = "medications" :=
    Or.inr rfl
  have hnorm := normalizeTarget_of_plist hlist
  have htl := targetListOf_of_lookup hlist
  rw [update_add_eq _ _ _ ht hv, hnorm, htl]
  have hin : pyIn (.pdict m) xs = false := pyIn_eq_false_of_forall habs
  rw [if_neg (by simp [hin])]
  rw [update_remove_eq _ _ _ ht hv]
  have hlook₂ : pyLookup (recordSet R "medications"
        (PyVal.plist (xs ++ [PyVal.pdict m]))) "medications"
      = some (PyVal.plist (xs ++ [PyVal.pdict m])) := pyLookup_recordSet_self ..
  rw [normalizeTarget_of_plist hlook₂, targetListOf_of_lookup hlook₂]
  have hfilter : (xs ++ [PyVal.pdict m]).filter (fun x => !(pyEq x (PyVal.pdict m))) = xs := by
    rw [List.filter_append]
    have h1 : xs.filter (fun x => !(pyEq x (PyVal.pdict m))) = xs :=
      List.filter_eq_self.mpr fun x hx => by simp [habs x hx]
    have h2 : [PyVal.pdict m].filter (fun x => !(pyEq x (.pdict m))) = [] := by
      simp [List.filter, pyEq_refl]
    rw [h1, h2, List.append_nil]
  rw [hfilter]
  have hlen : xs.length < (xs ++ [PyVal.pdict m]).length := by simp
  rw [if_pos hlen, recordSet_recordSet_self, recordSet_self_of_lookup hlist]

theorem C2_add_remove_medications_inverse_witness :
    pyHasAllKeys (.pdict sampleTerm) required_keys = some true ∧
    update_record_data
      (update_record_data [("medications", .plist [])] "add" "medications"
        (.pdict sampleTerm)).1
      "remove" "medications" (.pdict sampleTerm)
    = ([("medications", .plist [])], some .removed) :=
  ⟨by rfl,
    C2_add_remove_medications_inverse [("medications", .plist [])] [] sampleTerm
      (by rfl) (by rfl) (by intro x hx; cases hx)⟩

/-- Values on which Python's `in` membership test does not raise. -/
def isContainer : PyVal → Bool
  | .pstr _ => true
  | .plist _ => true
  | .pdict _ => true
  | _ => false

/-- Dict test (`isinstance(x, dict)` / has a `.get` method here). -/
def isPdict : PyVal → Bool
  | .pdict _ => true
  | _ => false

theorem pyContainsKey_isSome_of_container {d : PyVal} (h : isContainer d = true)
    (k : String) : (pyContainsKey d k).isSome := by
  cases d <;> simp_all [isContainer, pyContainsKey]

theorem pyHasAllKeys_ne_none_of_container {d : PyVal} (h : isContainer d = true) :
    ∀ ks : List String, pyHasAllKeys d ks ≠ none := by
  intro ks
  induction ks with
  | nil => simp [pyHasAllKeys]
  | cons k rest ih =>
    have hk := pyContainsKey_isSome_of_container h k
    cases hck : pyContainsKey d k with
    | none => rw [hck] at hk; cases hk
    | some b =>
      cases b <;> simp [pyHasAllKeys, hck, ih]

theorem updateByName_ne_none_of_dicts {name d : PyVal} {xs : List PyVal}
    (h : ∀ x ∈ xs, isPdict x = true) : updateByName name d xs ≠ none := by
  induction xs with
  | nil => simp [updateByName]
  | cons item rest ih =>
    have hitem := h item (List.mem_cons_self _ _)
    have hget : ∃ v, pyGetMethod item "standard_name" = some v := by
      cases item <;> simp_all [isPdict, pyGetMethod]
    obtain ⟨v, hv⟩ := hget
    have ihr := ih fun x hx => h x (List.mem_cons_of_mem _ hx)
    rw [updateByName, hv]
    by_cases he : pyEq v name = true
    · simp [he]
    · simp only [he]
      cases hrec : updateByName name d rest with
      | none => exact absurd hrec ihr
      | some o => cases o <;> simp

/-- The `quick_summary` update branch always returns with a report. -/
theorem update_summary_isSome (R : List (String × PyVal)) (d : PyVal) :
    (update_record_data R "update" "quick_summary" d).2.isSome := by
  simp only [update_record_data]
  rw [if_neg (show ¬("quick_summary" = "problems" ∨ "quick_summary" = "medications")
    by decide)]
  norm_num
  split <;> simp

/-- C3 counterexample: the membership validation
`all(k in details for k in required_keys)` raises `TypeError` when
`details` is `None`, so the call is not total (and the record has already
been normalised in place when it raises). -/
theorem C3_counterexample :
    (update_record_data [] "add" "problems" PyVal.pnone).2 = none ∧
    update_record_data [] "add" "problems" PyVal.pnone
      = ([("problems", PyVal.plist [])], none) := by
  exact ⟨rfl, rfl⟩

/-- C3 as amended: `update_record_data` never raises provided that, on a
list target, `details` supports membership tests (a map, string or list)
and, for the `update` action, `details` and every entry of the target
list are maps; Python raises `TypeError`/`AttributeError` outside these
conditions (see the counterexample). -/
theorem C3_total_amended (r : List (String × PyVal)) (a t : String) (d : PyVal)
    (h : (t = "problems" ∨ t = "medications") →
      isContainer d = true ∧
        (a = "update" → isPdict d = true ∧
          ∀ x ∈ targetListOf (normalizeTarget r t) t, isPdict x = true)) :
    (update_record_data r a t d).2.isSome := by
  by_cases ht : t = "problems" ∨ t = "medications"
  · obtain ⟨hcont, hupd⟩ := h ht
    cases hk : pyHasAllKeys d required_keys with
    | none => exact absurd hk (pyHasAllKeys_ne_none_of_container hcont _)
    | some b =>
      cases b with
      | false => rw [update_invalid_eq _ _ _ _ ht hk]; simp
      | true =>
        by_cases ha : a = "add"
        · subst ha
          rw [update_add_eq _ _ _ ht hk]
          split <;> simp
        · by_cases ha₂ : a = "remove"
          · subst ha₂
            rw [update_remove_eq _ _ _ ht hk]
            simp
          · by_cases ha₃ : a = "update"
            · subst ha₃
              obtain ⟨hd, hxs⟩ := hupd rfl
              have hget : ∃ v, pyGetMethod d "standard_name" = some v := by
                cases d <;> simp_all [isPdict, pyGetMethod]
              obtain ⟨v, hv⟩ := hget
              rw [update_update_eq_some _ _ _ _ ht hk hv]
              cases hub : updateByName v d (targetListOf (normalizeTarget r t) t) with
              | none => exact absurd hub (updateByName_ne_none_of_dicts hxs)
              | some o => cases o <;> simp
            · rw [update_unknown_action_eq _ _ _ _ ht ha ha₂ ha₃ hk]
              simp
  · by_cases hq : t = "quick_summary" ∧ a = "update"
    · obtain ⟨rfl, rfl⟩ := hq
      exact update_summary_isSome r d
    · rw [update_unsupported_eq _ _ _ _ ht hq]
      simp

theorem C3_total_amended_witness :
    (update_record_data [] "update" "problems" (.pdict sampleTerm)).2.isSome :=
  C3_total_amended [] "update" "problems" (.pdict sampleTerm)
    (fun _ => ⟨rfl, fun _ => ⟨rfl, by intro x hx; cases hx⟩⟩)

/-- C4 counterexample: on a record with no `problems` entry, invalid
details are reported but the record comes back with `problems`
initialised to `[]` — not completely unchanged. -/
theorem C4_counterexample :
    update_record_data [] "add" "problems" (.pdict [])
      = ([("problems", PyVal.plist [])], some .invalidDetails)
    ∧ ([("problems", PyVal.plist [])] : List (String × PyVal)) ≠ [] := by
  exact ⟨rfl, by simp⟩

/-- C4 as amended: details missing a required field are reported as
invalid and the target list contents are untouched, but the record has
already been normalised: when the target key was missing or non-list it
now holds `[]`; only when the record already had a list there is it
returned completely unchanged. -/
theorem C4_invalid_details_amended (r : List (String × PyVal)) (a t : String) (d : PyVal)
    (ht : t = "problems" ∨ t = "medications")
    (hv : pyHasAllKeys d required_keys = some false) :
    update_record_data r a t d = (normalizeTarget r t, some .invalidDetails)
    ∧ ∀ xs, pyLookup r t = some (.plist xs) → normalizeTarget r t = r :=
  ⟨update_invalid_eq r a t d ht hv, fun _ h => normalizeTarget_of_plist h⟩

theorem C4_invalid_details_amended_witness :
    update_record_data [("problems", PyVal.plist [])] "add" "problems"
      (.pdict [("standard_name", .pstr "x")])
    = ([("problems", PyVal.plist [])], some .invalidDetails) := by
  have h := C4_invalid_details_amended [("problems", PyVal.plist [])] "add" "problems"
    (.pdict [("standard_name", .pstr "x")]) (Or.inl rfl) (by rfl)
  rw [h.1, h.2 [] rfl]

/-- `item.get("standard_name")` as evaluated on a dict item (`None` when
the key is missing); the comparison key of the `update` loop. -/
def pyNameOf (x : PyVal) : PyVal :=
  match x with
  | .pdict im => (pyLookup im "standard_name").getD .pnone
  | _ => .pnone

theorem pyGetMethod_eq_pyNameOf {x : PyVal} (h : isPdict x = true) :
    pyGetMethod x "standard_name" = some (pyNameOf x) := by
  cases x <;> simp_all [isPdict, pyGetMethod, pyNameOf]

theorem updateByName_cons_some {item name d v : PyVal} {rest : List PyVal}
    (hget : pyGetMethod item "standard_name" = some v) :
    updateByName name d (item :: rest)
      = if pyEq v name = true then some (some (d :: rest))
        else
          match updateByName name d rest with
          | none => none
          | some none => some none
          | some (some ys) => some (some (item :: ys)) := by
  rw [updateByName, hget]

theorem updateByName_eq_none_of_nomatch {name d : PyVal} {xs : List PyVal}
    (hdicts : ∀ x ∈ xs, isPdict x = true)
    (hno : ∀ x ∈ xs, pyEq (pyNameOf x) name = false) :
    updateByName name d xs = some none := by
  induction xs with
  | nil => rfl
  | cons item rest ih =>
    rw [updateByName_cons_some (pyGetMethod_eq_pyNameOf
      (hdicts item (List.mem_cons_self _ _)))]
    rw [if_neg (by simp [hno item (List.mem_cons_self _ _)])]
    rw [ih (fun x hx => hdicts x (List.mem_cons_of_mem _ hx))
        (fun x hx => hno x (List.mem_cons_of_mem _ hx))]

theorem updateByName_eq_replace {name d item : PyVal} {pre post : List PyVal}
    (hpredicts : ∀ y ∈ pre, isPdict y = true)
    (hprene : ∀ y ∈ pre, pyEq (pyNameOf y) name = false)
    (hitem : pyEq (pyNameOf item) name = true)
    (hitemdict : isPdict item = true) :
    updateByName name d (pre ++ item :: post) = some (some (pre ++ d :: post)) := by
  induction pre with
  | nil =>
    rw [List.nil_append, updateByName_cons_some (pyGetMethod_eq_pyNameOf hitemdict),
      if_pos hitem]
    rfl
  | cons y rest ih =>
    rw [List.cons_append, updateByName_cons_some (pyGetMethod_eq_pyNameOf
      (hpredicts y (List.mem_cons_self _ _)))]
    rw [if_neg (by simp [hprene y (List.mem_cons_self _ _)])]
    rw [ih (fun z hz => hpredicts z (List.mem_cons_of_mem _ hz))
        (fun z hz => hprene z (List.mem_cons_of_mem _ hz))]
    rfl

/-- C5 counterexample: with a non-dict entry in `problems`, the `update`
loop raises `AttributeError` at `item.get(...)` instead of reporting
"not found" with the record unchanged. -/
theorem C5_counterexample :
    update_record_data [("problems", PyVal.plist [PyVal.pstr "x"])]
      "update" "problems" (.pdict sampleTerm)
    = ([("problems", PyVal.plist [PyVal.pstr "x"])], none) := by
  rfl

/-- C5 as amended: on a record whose `problems` entry is a list of dict
items, `update` matches solely by comparing each item's
`standard_name` (`None` when absent) against the details map's: with no
match the record is returned unchanged and "not found" is reported; with
a match, exactly the first matching entry is replaced wholesale by the
details map, preserving the surrounding entries and hence order and
length. -/
theorem C5_update_matches_by_standard_name (R : List (String × PyVal))
    (xs : List PyVal) (m : List (String × PyVal))
    (hv : pyHasAllKeys (.pdict m) required_keys = some true)
    (hlist : pyLookup R "problems" = some (.plist xs))
    (hdicts : ∀ x ∈ xs, isPdict x = true) :
    ((∀ x ∈ xs, pyEq (pyNameOf x) (pyNameOf (.pdict m)) = false) →
        update_record_data R "update" "problems" (.pdict m) = (R, some .updateNotFound))
    ∧ ∀ pre item post, xs = pre ++ item :: post →
        (∀ y ∈ pre, pyEq (pyNameOf y) (pyNameOf (.pdict m)) = false) →
        pyEq (pyNameOf item) (pyNameOf (.pdict m)) = true →
        update_record_data R "update" "problems" (.pdict m)
          = (recordSet R "problems" (.plist (pre ++ .pdict m :: post)), some .updated) := by
  have ht : ("problems" : String) = "problems" ∨ ("problems" : String) = "medications" :=
    Or.inl rfl
  have hnorm := normalizeTarget_of_plist hlist
  have htl := targetListOf_of_lookup hlist
  have hname : pyGetMethod (.pdict m) "standard_name" = some (pyNameOf (.pdict m)) :=
    pyGetMethod_eq_pyNameOf rfl
  constructor
  · intro hno
    rw [update_update_eq_some _ _ _ _ ht hv hname, hnorm, htl,
      updateByName_eq_none_of_nomatch hdicts hno]
  · intro pre item post hsplit hpre hitem
    rw [update_update_eq_some _ _ _ _ ht hv hname, hnorm, htl, hsplit]
    have hdicts' : ∀ x ∈ pre ++ item :: post, isPdict x = true := hsplit ▸ hdicts
    rw [updateByName_eq_replace (fun y hy => hdicts' y (List.mem_append_left _ hy))
      hpre hitem
      (hdicts' item (List.mem_append_right _ (List.mem_cons_self _ _)))]

theorem C5_update_matches_by_standard_name_witness :
    update_record_data [("problems", PyVal.plist [PyVal.pdict sampleTerm])]
      "update" "problems"
      (.pdict [("standard_name", .pstr "Lisinopril"),
        ("standard_code_type", .pstr "RxNorm"), ("standard_code_value", .pstr "29047")])
    = ([("problems", PyVal.plist [PyVal.pdict [("standard_name", .pstr "Lisinopril"),
        ("standard_code_type", .pstr "RxNorm"), ("standard_code_value", .pstr "29047")]])],
       some .updated) := by
  have h := (C5_update_matches_by_standard_name
    [("problems", PyVal.plist [PyVal.pdict sampleTerm])] [PyVal.pdict sampleTerm]
    [("standard_name", .pstr "Lisinopril"), ("standard_code_type", .pstr "RxNorm"),
      ("standard_code_value", .pstr "29047")]
    (by rfl) (by rfl) (by intro x hx; rw [List.mem_singleton] at hx; subst hx; rfl)).2
    [] (PyVal.pdict sampleTerm) [] rfl (by intro y hy; cases hy)
    (by simp [pyNameOf, sampleTerm, pyLookup, pyEq_pstr_pstr])
  rw [h]
  rfl

/-- `sampleTerm` with an extra key: agrees with `sampleTerm` on all three
`ClinicalTerm` fields but is a different Python dict. -/
def sampleTermExtra : List (String × PyVal) :=
  sampleTerm ++ [("dose", .pstr "10mg")]

/-- C6 counterexample: details agreeing with a present entry on all three
`ClinicalTerm` fields but carrying an extra key are *not* suppressed as a
duplicate — the add appends them, because matching uses Python `==` on
the whole maps. -/
theorem C6_counterexample :
    update_record_data [("problems", PyVal.plist [PyVal.pdict sampleTerm])]
      "add" "problems" (.pdict sampleTermExtra)
    = ([("problems", PyVal.plist [PyVal.pdict sampleTerm, PyVal.pdict sampleTermExtra])],
       some .added)
    ∧ Outcome.added ≠ Outcome.duplicate := by
  have hlook : pyLookup [("problems", PyVal.plist [PyVal.pdict sampleTerm])] "problems"
      = some (PyVal.plist [PyVal.pdict sampleTerm]) := rfl
  constructor
  · rw [update_add_eq _ _ _ (Or.inl rfl) (by rfl)]
    rw [normalizeTarget_of_plist hlook, targetListOf_of_lookup hlook]
    rw [if_neg (show ¬(pyIn (.pdict sampleTermExtra) [PyVal.pdict sampleTerm] = true) by
      simp [pyIn, pyEq_pdict_pdict, sampleTerm, sampleTermExtra])]
    rfl
  · decide

/-- C6 as amended: de-duplication on `add` and the matching of `remove`
are governed by Python `==` on the entire details maps — equal key sets
with equal values — not by the three `ClinicalTerm` fields alone: the
add is suppressed exactly when some entry compares `==`-equal to the
details map, and remove filters out exactly the `==`-equal entries. -/
theorem C6_matching_full_structural (R : List (String × PyVal)) (xs : List PyVal)
    (m : List (String × PyVal))
    (hv : pyHasAllKeys (.pdict m) required_keys = some true)
    (hlist : pyLookup R "problems" = some (.plist xs)) :
    ((update_record_data R "add" "problems" (.pdict m)).2 = some .duplicate
        ↔ pyIn (.pdict m) xs = true)
    ∧ (update_record_data R "remove" "problems" (.pdict m)).1
        = recordSet R "problems" (.plist (xs.filter fun x => !(pyEq x (.pdict m)))) := by
  have ht : ("problems" : String) = "problems" ∨ ("problems" : String) = "medications" :=
    Or.inl rfl
  have hnorm := normalizeTarget_of_plist hlist
  have htl := targetListOf_of_lookup hlist
  constructor
  · rw [update_add_eq _ _ _ ht hv, hnorm, htl]
    by_cases hin : pyIn (.pdict m) xs = true
    · simp [hin]
    · simp [hin]
  · rw [update_remove_eq _ _ _ ht hv, hnorm, htl]

theorem C6_matching_full_structural_witness :
    ((update_record_data [("problems", PyVal.plist [])] "add" "problems"
        (.pdict sampleTerm)).2 = some .duplicate
      ↔ pyIn (.pdict sampleTerm) [] = true)
    ∧ (update_record_data [("problems", PyVal.plist [])] "remove" "problems"
        (.pdict sampleTerm)).1
      = recordSet [("problems", PyVal.plist [])] "problems"
          (.plist (List.filter (fun x => !(pyEq x (.pdict sampleTerm))) [])) :=
  C6_matching_full_structural [("problems", PyVal.plist [])] [] sampleTerm
    (by rfl) (by rfl)

/-- C7 counterexample: an unrecognised action on a list target with valid
details falls through all branches silently — no "unsupported" report. -/
theorem C7_counterexample :
    update_record_data [("problems", PyVal.plist [])] "replace" "problems"
      (.pdict sampleTerm)
    = ([("problems", PyVal.plist [])], some .silentNoop)
    ∧ Outcome.silentNoop ≠ Outcome.unsupported := by
  exact ⟨rfl, by decide⟩

/-- C7 as amended: "unsupported" is reported exactly for targets outside
{`problems`, `medications`, `quick_summary`-with-`update`}, with the
record untouched; an unrecognised action on a list target with valid
details instead returns the (normalised) record with no report at all. -/
theorem C7_unsupported_amended (r : List (String × PyVal)) (a t : String) (d : PyVal) :
    (¬(t = "problems" ∨ t = "medications") → ¬(t = "quick_summary" ∧ a = "update") →
        update_record_data r a t d = (r, some .unsupported))
    ∧ ((t = "problems" ∨ t = "medications") → a ≠ "add" → a ≠ "remove" → a ≠ "update" →
        pyHasAllKeys d required_keys = some true →
        update_record_data r a t d = (normalizeTarget r t, some .silentNoop)) :=
  ⟨fun ht hq => update_unsupported_eq r a t d ht hq,
   fun ht h1 h2 h3 hv => update_unknown_action_eq r a t d ht h1 h2 h3 hv⟩

theorem C7_unsupported_amended_witness :
    update_record_data [] "add" "allergies" (.pdict sampleTerm)
      = ([], some .unsupported) :=
  (C7_unsupported_amended [] "add" "allergies" (.pdict sampleTerm)).1
    (by decide) (by decide)

/-- C8 counterexample: a whitespace-only chat input is truthy in Python,
so it passes the `if user_prompt:` gate — the transcript gains a (stripped,
empty) user message and the model call proceeds. -/
theorem C8_counterexample :
    submitUserMessage [] " " = ([("user", "")], true)
    ∧ ([("user", "")] : List (String × String)) ≠ [] := by
  constructor
  · rfl
  · simp

/-- C8 as amended: the gate rejects only the empty input (no transcript
change, no model call); any nonempty input — whitespace-only included —
is stripped, appended as a user message, and the model call proceeds. -/
theorem C8_submit_gate_amended (h : List (String × String)) (s : String) :
    submitUserMessage h "" = (h, false)
    ∧ (s ≠ "" → submitUserMessage h s = (h ++ [("user", pyStrip s)], true)) := by
  constructor
  · simp [submitUserMessage]
  · intro hs
    simp [submitUserMessage, hs]

theorem C8_submit_gate_amended_witness :
    (" " : String) ≠ ""
    ∧ submitUserMessage [] " " = ([] ++ [("user", pyStrip " ")], true) :=
  ⟨by decide, (C8_submit_gate_amended [] " ").2 (by decide)⟩

/-- C9: a model reply whose processed text lacks a `{`/`}` pair adds
exactly one assistant message to the transcript and nothing else happens:
the patients map (hence every note's `raw_data`) is unchanged and
`save_patient_data` is not called. -/
theorem C9_plain_reply_no_mutation (parse : String → Option PyVal)
    (regenResp : Option String) (pid : String) (st : ChatState) (raw : String)
    (h : ¬(strContainsSub (procText raw) "\x7b" = true
          ∧ strContainsSub (procText raw) "\x7d" = true)) :
    processReply parse regenResp pid st raw
      = ⟨⟨st.transcript ++ [("assistant", procText raw)], st.patients⟩, false⟩ := by
  have hAB : (strContainsSub (procText raw) "\x7b"
      && strContainsSub (procText raw) "\x7d") = false := by
    cases h1 : strContainsSub (procText raw) "\x7b" <;>
      cases h2 : strContainsSub (procText raw) "\x7d" <;> simp_all
  simp [processReply, hAB]

theorem C9_plain_reply_no_mutation_witness :
    ¬(strContainsSub (procText "Hello") "\x7b" = true
        ∧ strContainsSub (procText "Hello") "\x7d" = true)
    ∧ processReply (fun _ => none) none "P-1001" ⟨[], []⟩ "Hello"
      = ⟨⟨[] ++ [("assistant", procText "Hello")], []⟩, false⟩ :=
  ⟨by decide, C9_plain_reply_no_mutation (fun _ => none) none "P-1001" ⟨[], []⟩ "Hello"
    (by decide)⟩

/-- C10: the add-patient flow computes the id `P-(len + 1001)` with no
uniqueness check; if that id is already a key of the session map, the
successful save overwrites the persisted document and the session entry
is replaced in place — the map does not grow, so no distinct patient is
created. -/
theorem C10_add_patient_overwrites (ps store : List (String × PyVal))
    (name today : String) (old : PyVal)
    (hname : name ≠ "")
    (hcol : pyLookup ps ("P-" ++ toString (ps.length + 1001)) = some old) :
    add_patient_submit true ⟨ps, store⟩ name today
      = ⟨recordSet ps ("P-" ++ toString (ps.length + 1001)) (newPatientData name today),
         recordSet store ("P-" ++ toString (ps.length + 1001)) (newPatientData name today)⟩
    ∧ (recordSet ps ("P-" ++ toString (ps.length + 1001))
        (newPatientData name today)).length = ps.length := by
  constructor
  · simp [add_patient_submit, save_patient_data, hname]
  · exact length_recordSet_of_lookup (by simp [hcol]) _

theorem C10_add_patient_overwrites_witness :
    ("Jane" : String) ≠ ""
    ∧ (add_patient_submit true ⟨[("P-1002", PyVal.pdict [])], []⟩ "Jane" "2026-10-12"
        = ⟨recordSet [("P-1002", PyVal.pdict [])]
            ("P-" ++ toString ([("P-1002", PyVal.pdict [])].length + 1001))
            (newPatientData "Jane" "2026-10-12"),
           recordSet [] ("P-" ++ toString ([("P-1002", PyVal.pdict [])].length + 1001))
            (newPatientData "Jane" "2026-10-12")⟩
       ∧ (recordSet [("P-1002", PyVal.pdict [])]
            ("P-" ++ toString ([("P-1002", PyVal.pdict [])].length + 1001))
            (newPatientData "Jane" "2026-10-12")).length
          = [("P-1002", PyVal.pdict [])].length) :=
  ⟨by decide,
    C10_add_patient_overwrites [("P-1002", PyVal.pdict [])] [] "Jane" "2026-10-12"
      (PyVal.pdict []) (by decide) (by rfl)⟩
